import Mathlib

set_option maxRecDepth 8000

/-
  Verification development for the `render_verify_fbx` repository.

  The repository contains two single-file Vue components that render a 3D
  product model with per-part textures:
  * variant A (`src/unnamed/part_000`): FBX model, manifest-keyed texture
    resolution (`findPartKeyFromObject`, `extractVariantName`,
    `resolveManifestInfo`, `buildMaterialForMesh`, `applyMaterialsToMesh`);
  * variant B (`src/src/App.vue`): GLB model, synthetic filename construction
    (`sanitizeName`, `extractPartKeyFromCandidate`, `resolveVariantKey`,
    `buildSharedTextureFileName`), plus a texture debug trace
    (`pushTextureDebug`).
  Both files share identical telemetry code (`updateTotalSizeMetric`,
  `markFirstFrameRendered`, `markTextureLoadStart`/`markTextureLoadEnd`,
  `recordAssetSize`) and an identical texture-cache shape in `loadTexture`.

  Strings are modelled with Lean `String`/`List Char`; the JavaScript regular
  expressions and string methods used by the source are ASCII-level and are
  translated into explicit recursive functions below.  Wall-clock times and
  byte counts are modelled as `Int`.
-/

namespace RVF

/-! ## Shared string helpers (both variants) -/

/-- A character kept by the source's `normalizeKey` regex class `[a-z0-9_]`
with the `i` flag, i.e. ASCII letters, digits and underscore. -/
def isWordChar (c : Char) : Bool :=
  c.isAlpha || c.isDigit || c == '_'

/-- ASCII letter or digit, the class `[a-z0-9]` with the `i` flag. -/
def isAlnumChar (c : Char) : Bool :=
  c.isAlpha || c.isDigit

/-- `normalizeKey` from both sources:
`value.replace(/[^a-z0-9_]/gi, '').toLowerCase()`. -/
def normalizeKey (s : String) : String :=
  String.mk ((s.toList.filter isWordChar).map Char.toLower)

/-- JavaScript `String.prototype.includes` on character lists. -/
def listIncludes : List Char → List Char → Bool
  | [], needle => needle.isEmpty
  | c :: t, needle => List.isPrefixOf needle (c :: t) || listIncludes t needle

/-- JavaScript `hay.includes(needle)`. -/
def strIncludes (hay needle : String) : Bool :=
  listIncludes hay.toList needle.toList

/-- JavaScript `s.startsWith(pre)`. -/
def strStartsWith (s pre : String) : Bool :=
  List.isPrefixOf pre.toList s.toList

/-- JavaScript `String.prototype.trim` (ASCII whitespace level). -/
def listTrim (cs : List Char) : List Char :=
  ((cs.dropWhile Char.isWhitespace).reverse.dropWhile Char.isWhitespace).reverse

/-- JavaScript `s.trim()`. -/
def strTrim (s : String) : String :=
  String.mk (listTrim s.toList)

/-- Attempt to match the regex `mat[a-z0-9]+` (with the `i` flag) at the very
start of the character list: the literal `mat` case-insensitively, followed by
a greedy non-empty run of ASCII alphanumerics.  Returns the matched
characters as they occur in the input. -/
def matTokenAt : List Char → Option (List Char)
  | c1 :: c2 :: c3 :: rest =>
    if c1.toLower == 'm' && c2.toLower == 'a' && c3.toLower == 't' then
      let run := rest.takeWhile isAlnumChar
      if run.isEmpty then none else some (c1 :: c2 :: c3 :: run)
    else none
  | _ => none

/-- Leftmost match of `mat[a-z0-9]+` (case-insensitive), as returned by
JavaScript `value.match(/mat[a-z0-9]+/i)` (`match[0]`). -/
def findMatToken : List Char → Option (List Char)
  | [] => none
  | c :: rest =>
    match matTokenAt (c :: rest) with
    | some tok => some tok
    | none => findMatToken rest

/-- `extractVariantName` from both sources: `null`/empty values give `null`;
otherwise the first match of `mat[a-z0-9]+` (case-insensitive), or `null`
when there is none. -/
def extractVariantName (value : Option String) : Option String :=
  match value with
  | none => none
  | some s =>
    if s.isEmpty then none
    else (findMatToken s.toList).map String.mk

/-- JavaScript falsiness of an optional string: `null`/`undefined` and the
empty string are falsy. -/
def jsFalsy (o : Option String) : Bool :=
  match o with
  | none => true
  | some s => s.isEmpty

/-- JavaScript `a || b` on optional strings. -/
def jsOr (a b : Option String) : Option String :=
  if jsFalsy a then b else a

/-- Association-list lookup, modelling JavaScript object property access on
objects built by literal insertion (keys are unique, first hit wins). -/
def lookupAssoc [BEq κ] (l : List (κ × α)) (k : κ) : Option α :=
  (l.find? (fun kv => kv.1 == k)).map Prod.snd

/-- The three texture channels declared by `textureMeta` in both sources. -/
inductive TextureChannel where
  | BaseColor
  | Normal
  | ORM
deriving DecidableEq, BEq, Repr

/-- Material slots targeted by a texture channel (`targets` in
`textureMeta`). -/
inductive MatTarget where
  | map
  | normalMap
  | roughnessMap
  | metalnessMap
  | aoMap
deriving DecidableEq, Repr

/-- The flat fallback material of `applyMaterialsToMesh`
(`new THREE.MeshStandardMaterial({color: 0x777777, metalness: 0.5,
roughness: 0.6})`); the exact float constants 0.5 and 0.6 are represented
as rationals. -/
structure FlatMaterial where
  color : Nat
  metalness : ℚ
  roughness : ℚ
deriving DecidableEq, Repr

/-- The gray flat default material used when a mesh's part resolves to no
manifest entry and its existing material is not already a standard one. -/
def defaultFlatMaterial : FlatMaterial :=
  { color := 0x777777, metalness := 0.5, roughness := 0.6 }

/-- The pre-existing material that a mesh carries before texture application:
its `name` (used for variant extraction) and whether it is a
`THREE.MeshStandardMaterial`. -/
structure ExistingMaterial where
  name : String
  isStandard : Bool
deriving DecidableEq, Repr

/-! ## Variant A: manifest-keyed resolution (`src/unnamed/part_000`) -/

namespace VA

/-- The static texture manifest: part key → variant key → channel →
filename, with declaration order preserved (JavaScript object insertion
order for non-numeric string keys). -/
abbrev PartEntry := List (String × List (TextureChannel × String))

abbrev Manifest := List (String × PartEntry)

/-- `manifestPartMeta`: every manifest part key paired with its normalized
form. -/
def manifestPartMeta (manifest : Manifest) : List (String × String) :=
  manifest.map (fun kv => (kv.1, normalizeKey kv.1))

/-- The predicate tested by `findPartKeyFromObject` at one node against one
manifest meta entry, including the truthiness guard on the trimmed name:
the node name is considered only when its trim is non-empty, and it matches
when its normalized form starts with or includes the normalized key. -/
def nodeHit (normKey : String) (name : String) : Bool :=
  let t := strTrim name
  !t.isEmpty &&
    (strStartsWith (normalizeKey t) normKey || strIncludes (normalizeKey t) normKey)

/-- `findPartKeyFromObject` (variant A, lines 62-79): walk the chain of node
names from the mesh itself upward through its ancestors; at every node with
a non-empty trimmed name, return the `original` key of the first
`manifestPartMeta` entry whose normalized key is a prefix of or contained in
the normalized node name. -/
def findPartKeyFromObject (meta : List (String × String)) : List String → Option String
  | [] => none
  | name :: rest =>
    let t := strTrim name
    if t.isEmpty then findPartKeyFromObject meta rest
    else
      match meta.find?
          (fun km => strStartsWith (normalizeKey t) km.2 || strIncludes (normalizeKey t) km.2) with
      | some km => some km.1
      | none => findPartKeyFromObject meta rest

/-- The variant-key computation inside `resolveManifestInfo` (lines 95-102),
factored out verbatim: extract a variant token from the material name,
falling back (nullish coalescing) to the mesh name; if a token was found,
look for the first declared variant key with an equal normalized form; the
JavaScript `||` then falls back to the part's first declared key when the
left side is null, undefined or the empty string. -/
def resolveVariantKey (partEntry : PartEntry) (materialName : Option String)
    (meshName : String) : Option String :=
  let variantName :=
    match extractVariantName materialName with
    | some v => some v
    | none => extractVariantName (some meshName)
  let found :=
    match variantName with
    | none => none
    | some vn => (partEntry.map Prod.fst).find? (fun key => normalizeKey key == normalizeKey vn)
  jsOr found (partEntry.map Prod.fst).head?

/-- The result of `resolveManifestInfo`: part key and the chosen variant's
texture table. -/
structure ManifestInfo where
  partKey : String
  textures : List (TextureChannel × String)
deriving DecidableEq, Repr

/-- `resolveManifestInfo` (variant A, lines 87-110).  The mesh is given by
its own name and the list of its ancestors' names, outward. -/
def resolveManifestInfo (manifest : Manifest) (meshName : String)
    (ancestors : List String) (materialName : Option String) : Option ManifestInfo :=
  match findPartKeyFromObject (manifestPartMeta manifest) (meshName :: ancestors) with
  | none => none
  | some partKey =>
    match lookupAssoc manifest partKey with
    | none => none
    | some partEntry =>
      match resolveVariantKey partEntry materialName meshName with
      | none => none
      | some variantKey =>
        if variantKey.isEmpty then none
        else
          match lookupAssoc partEntry variantKey with
          | none => none
          | some textures => some { partKey := partKey, textures := textures }

/-- `textureBasePath` constant of variant A. -/
def textureBasePath : String := "https://cdn.rainnnn.com/textures"

/-- `textureMeta` of variant A: channel, target slots, sRGB flag. -/
def textureMeta : List (TextureChannel × List MatTarget × Bool) :=
  [(.BaseColor, [.map], true),
   (.Normal, [.normalMap], false),
   (.ORM, [.aoMap, .roughnessMap, .metalnessMap], false)]

/-- `buildMaterialForMesh` (variant A, lines 367-400), modelled by the list
of texture requests it issues: `null` when `resolveManifestInfo` found no
manifest entry, otherwise one request
`<textureBasePath>/<partKey>/<fileName>` per declared channel of the chosen
variant, in `textureMeta` order. -/
def buildMaterialForMesh (manifest : Manifest) (meshName : String)
    (ancestors : List String) (materialName : Option String) :
    Option (List (TextureChannel × String)) :=
  match resolveManifestInfo manifest meshName ancestors materialName with
  | none => none
  | some info =>
    some (textureMeta.filterMap (fun tm =>
      (lookupAssoc info.textures tm.1).map (fun fileName =>
        (tm.1, textureBasePath ++ "/" ++ info.partKey ++ "/" ++ fileName))))

/-- The material a mesh ends up with after `applyMaterialsToMesh` in the
single-material branch (lines 426-437). -/
inductive AppliedMaterial where
  /-- `buildMaterialForMesh` returned a material; it replaces the existing
  one.  The payload is the list of texture requests of the built material. -/
  | replaced (requests : List (TextureChannel × String))
  /-- no manifest entry, but the existing material is already a
  `MeshStandardMaterial` and is kept. -/
  | kept
  /-- no manifest entry and the existing material is not standard: the flat
  gray default is installed. -/
  | flatDefault (m : FlatMaterial)
deriving DecidableEq, Repr

/-- `applyMaterialsToMesh` (variant A, lines 412-438), single-material case:
build a material from the mesh and the existing material's name; on `null`,
fall back to the gray flat default only when the existing material is not
already a `MeshStandardMaterial`. -/
def applyMaterialsToMesh (manifest : Manifest) (meshName : String)
    (ancestors : List String) (existing : ExistingMaterial) : AppliedMaterial :=
  match buildMaterialForMesh manifest meshName ancestors (some existing.name) with
  | some requests => .replaced requests
  | none =>
    if existing.isStandard then .kept
    else .flatDefault defaultFlatMaterial

end VA

/-! ## Variant B: synthetic filename construction (`src/src/App.vue`) -/

namespace VB

/-- Auxiliary scanner for `value.replace(/\s+/g, '_')`: each maximal run of
whitespace becomes a single underscore.  The flag records whether the
previous character was whitespace (in which case further whitespace is
absorbed into the underscore already emitted). -/
def collapseWsAux : Bool → List Char → List Char
  | _, [] => []
  | prevWs, c :: rest =>
    if c.isWhitespace then
      if prevWs then collapseWsAux true rest
      else '_' :: collapseWsAux true rest
    else c :: collapseWsAux false rest

/-- `value.replace(/\s+/g, '_')`. -/
def collapseWhitespace (cs : List Char) : List Char :=
  collapseWsAux false cs

/-- The `\b` of `/_low\b/`: after the final `w` there is a word boundary
exactly when the input ends or the next character is not a word
character. -/
def lowBoundary : List Char → Bool
  | [] => true
  | c :: _ => !isWordChar c

/-- Does `/_low\b/` match at the start of the list? -/
def lowAt : List Char → Bool
  | '_' :: 'l' :: 'o' :: 'w' :: rest => lowBoundary rest
  | _ => false

/-- Fuel-indexed scanner for `value.replace(/_low\b/g, '')`: at each
position, if `_low` followed by a word boundary matches, drop those four
characters and continue after them; otherwise keep one character.  The fuel
(initially the list length) only guarantees structural recursion and is
never exhausted. -/
def removeLowAux : Nat → List Char → List Char
  | 0, cs => cs
  | _ + 1, [] => []
  | fuel + 1, c :: rest =>
    if lowAt (c :: rest) then removeLowAux fuel (rest.drop 3)
    else c :: removeLowAux fuel rest

/-- `value.replace(/_low\b/g, '')`. -/
def removeLowWord (cs : List Char) : List Char :=
  removeLowAux cs.length cs

/-- `sanitizeName` (variant B, lines 60-61):
`normalizeKey(value.replace(/\s+/g, '_').replace(/_low\b/g, ''))`. -/
def sanitizeName (s : String) : String :=
  normalizeKey (String.mk (removeLowWord (collapseWhitespace s.toList)))

/-- JavaScript `sanitized.split('_')` on character lists: split at every
underscore, keeping empty pieces. -/
def splitUnderscore : List Char → List (List Char)
  | [] => [[]]
  | '_' :: rest => [] :: splitUnderscore rest
  | c :: rest =>
    match splitUnderscore rest with
    | [] => [[c]]
    | g :: gs => (c :: g) :: gs

/-- `collected.join('_')`. -/
def joinUnderscore : List (List Char) → List Char
  | [] => []
  | [g] => g
  | g :: gs => g ++ '_' :: joinUnderscore gs

/-- The regex `/^\d+$/`: a non-empty all-digit token. -/
def isNumericToken (t : List Char) : Bool :=
  !t.isEmpty && t.all Char.isDigit

/-- `token.startsWith('mat')` (tokens are already lowercased). -/
def startsWithMat (t : List Char) : Bool :=
  List.isPrefixOf ['m', 'a', 't'] t

/-- The collection loop of `extractPartKeyFromCandidate` (lines 70-75):
from the presumed part index onward, skip empty tokens, stop exclusively at
the first token beginning with `mat`, collect the rest. -/
def collectLoop : List (List Char) → List (List Char)
  | [] => []
  | t :: rest =>
    if t.isEmpty then collectLoop rest
    else if startsWithMat t then []
    else t :: collectLoop rest

/-- `joined.replace(/_\d+$/, '')`: strip one trailing `_<digits>` instance
suffix (an underscore followed by a non-empty run of digits at the very
end). -/
def stripTrailingIndex (cs : List Char) : List Char :=
  let r := cs.reverse
  let ds := r.takeWhile Char.isDigit
  if ds.isEmpty then cs
  else
    match r.drop ds.length with
    | '_' :: rest => rest.reverse
    | _ => cs

/-- `extractPartKeyFromCandidate` (variant B, lines 63-82). -/
def extractPartKeyFromCandidate (value : Option String) : Option String :=
  match value with
  | none => none
  | some s =>
    if s.isEmpty then none
    else
      let tokens := (splitUnderscore (sanitizeName s).toList).filter (fun t => !t.isEmpty)
      match tokens.findIdx? isNumericToken with
      | none => none
      | some index =>
        let collected := collectLoop (tokens.drop index)
        if 2 ≤ collected.length then
          some (String.mk (stripTrailingIndex (joinUnderscore collected)))
        else none

/-- `findPartKeyFromObject` (variant B, lines 84-101): candidate strings
are the mesh's own name (when non-empty), the material name (when provided
and non-empty), then each ancestor's name outward; the first candidate from
which a part key can be extracted wins. -/
def findPartKeyFromObject (meshName : String) (materialName : Option String)
    (ancestors : List String) : Option String :=
  let candidates :=
    (if meshName.isEmpty then [] else [meshName]) ++
    (match materialName with
     | some m => if m.isEmpty then [] else [m]
     | none => []) ++
    ancestors.filter (fun n => !n.isEmpty)
  candidates.findSome? (fun candidate => extractPartKeyFromCandidate (some candidate))

/-- `variantFileNameMap` (variant B, lines 103-107). -/
def variantFileNameMap : List (String × String) :=
  [("matmetal", "MatMetal"), ("matpaint", "MatPaint"), ("matrubber", "matRubber")]

/-- `resolveVariantKey` (variant B, lines 108-111): normalize the variant
token; an empty result yields the hardcoded default `"matmetal"`. -/
def resolveVariantKey (variant : Option String) : String :=
  let normalized := normalizeKey (variant.getD "")
  if normalized.isEmpty then "matmetal" else normalized

/-- Channel name as used in the constructed filename. -/
def channelSuffix : TextureChannel → String
  | .BaseColor => "BaseColor"
  | .Normal => "Normal"
  | .ORM => "ORM"

/-- `buildSharedTextureFileName` (variant B, lines 112-115):
`model_<VariantDisplayName>_<Channel>.ktx2`, with the display name looked
up in `variantFileNameMap` and defaulting to the variant key itself. -/
def buildSharedTextureFileName (variantKey : String) (suffix : TextureChannel) : String :=
  let variantName := (lookupAssoc variantFileNameMap variantKey).getD variantKey
  "model_" ++ variantName ++ "_" ++ channelSuffix suffix ++ ".ktx2"

/-- `textureBasePath` constant of variant B. -/
def textureBasePath : String := "https://cdn.rainnnn.com/ktx/v3"

/-- Texture color space hints of variant B's `textureMeta`. -/
inductive TexColorSpace where
  | srgb
  | linear
  | none
deriving DecidableEq, Repr

/-- `textureMeta` of variant B: channel, target slots, color space. -/
def textureMeta : List (TextureChannel × List MatTarget × TexColorSpace) :=
  [(.BaseColor, [.map], .srgb),
   (.Normal, [.normalMap], .none),
   (.ORM, [.aoMap, .roughnessMap, .metalnessMap], .none)]

/-- Result of variant B's `buildMaterialForMesh`: the resolved part key (if
any), the chosen variant key, and the texture requests issued. -/
structure BuiltMaterial where
  partKey : Option String
  variantKey : String
  requests : List (TextureChannel × String)
deriving DecidableEq, Repr

/-- `buildMaterialForMesh` (variant B, lines 431-468): resolve a part key
(may fail) and a variant key (never fails: `resolveVariantKey` defaults to
`"matmetal"`), then request all three channels of the constructed shared
filenames.  The function always returns a material; the `Option` mirrors
the source's return type `Promise<THREE.MeshStandardMaterial | null>`. -/
def buildMaterialForMesh (meshName : String) (materialName : Option String)
    (ancestors : List String) : Option BuiltMaterial :=
  let partKey := findPartKeyFromObject meshName materialName ancestors
  let variantRaw :=
    match extractVariantName materialName with
    | some v => some v
    | none =>
      match extractVariantName (some meshName) with
      | some v => some v
      | none => extractVariantName partKey
  let variantKey := resolveVariantKey variantRaw
  some
    { partKey := partKey
      variantKey := variantKey
      requests :=
        textureMeta.map (fun tm =>
          (tm.1, textureBasePath ++ "/" ++ buildSharedTextureFileName variantKey tm.1)) }

/-- The material a mesh ends up with after variant B's
`applyMaterialsToMesh` (lines 480-506), single-material case. -/
inductive AppliedMaterial where
  /-- the built material replaces the existing one. -/
  | replaced (m : BuiltMaterial)
  /-- `null` from the builder, existing material standard: kept. -/
  | kept
  /-- `null` from the builder, existing material not standard: flat gray
  default. -/
  | flatDefault (m : FlatMaterial)
deriving DecidableEq, Repr

/-- `applyMaterialsToMesh` (variant B, lines 494-505), single-material
case. -/
def applyMaterialsToMesh (meshName : String) (ancestors : List String)
    (existing : ExistingMaterial) : AppliedMaterial :=
  match buildMaterialForMesh meshName (some existing.name) ancestors with
  | some m => .replaced m
  | none =>
    if existing.isStandard then .kept
    else .flatDefault defaultFlatMaterial

/-- Status of a texture load attempt in the debug trace. -/
inductive TexStatus where
  | success
  | fail
deriving DecidableEq, Repr

/-- `TextureDebugEntry` (variant B, lines 142-147). -/
structure TextureDebugEntry where
  path : String
  status : TexStatus
  part : Option String
  variant : Option String
deriving DecidableEq, Repr

/-- JavaScript `l.slice(-n)`: the last `n` elements (all of them when the
list is shorter). -/
def jsSliceLast (n : Nat) (l : List α) : List α :=
  l.drop (l.length - n)

/-- `pushTextureDebug` (variant B, lines 149-151):
`textureDebug.value = [...textureDebug.value.slice(-50), entry]`. -/
def pushTextureDebug (trace : List TextureDebugEntry) (entry : TextureDebugEntry) :
    List TextureDebugEntry :=
  jsSliceLast 50 trace ++ [entry]

/-! ### Spec-side comparison definitions for claim C8

`specPartKeyOfCandidate` states the extraction pipeline in the spec's own
vocabulary (corrected on the `_low` rule), to be compared with the
source-derived `extractPartKeyFromCandidate`; `claimPartKeyOfCandidate`
renders the claim exactly as written, with `_low` stripped only as a
trailing suffix. -/

/-- Spec-worded extraction: normalize, split on underscore into non-empty
tokens, locate the first purely-numeric token, take tokens up to the first
`mat`-token exclusively, require at least two, join and strip one trailing
`_<digits>` suffix. -/
def specPartKeyOfCandidate (s : String) : Option String :=
  if s.isEmpty then none
  else
    let tokens := (splitUnderscore (sanitizeName s).toList).filter (fun t => !t.isEmpty)
    (tokens.findIdx? isNumericToken).bind (fun index =>
      let collected := (tokens.drop index).takeWhile (fun t => !startsWithMat t)
      if 2 ≤ collected.length then
        some (String.mk (stripTrailingIndex (joinUnderscore collected)))
      else none)

/-- The claim's normalization: `_low` stripped only as a trailing
suffix. -/
def claimSanitizeName (s : String) : String :=
  let collapsed := collapseWhitespace s.toList
  let stripped :=
    if List.isSuffixOf ['_', 'l', 'o', 'w'] collapsed then
      collapsed.take (collapsed.length - 4)
    else collapsed
  normalizeKey (String.mk stripped)

/-- The extraction pipeline exactly as claim C8 words it (trailing-only
`_low` stripping, otherwise identical). -/
def claimPartKeyOfCandidate (s : String) : Option String :=
  if s.isEmpty then none
  else
    let tokens := (splitUnderscore (claimSanitizeName s).toList).filter (fun t => !t.isEmpty)
    (tokens.findIdx? isNumericToken).bind (fun index =>
      let collected := (tokens.drop index).takeWhile (fun t => !startsWithMat t)
      if 2 ≤ collected.length then
        some (String.mk (stripTrailingIndex (joinUnderscore collected)))
      else none)

end VB

/-! ## Telemetry tracker (identical in both sources)

The metric-updating code of `src/unnamed/part_000` (lines 126-275) and
`src/src/App.vue` (lines 132-295) is byte-for-byte identical apart from the
`enableSizeProbeFallback` flag, which only gates where a probed size comes
from; the probed size is an input of the `record` event here.  Times and
byte counts are `Int`. -/

namespace Metrics

/-- `MetricItem`: `{durationMs, sizeBytes}`, each `number | null`. -/
structure MetricItem where
  durationMs : Option Int
  sizeBytes : Option Int
deriving DecidableEq, Repr

/-- `loadMetrics`: `{total, model, textures}`. -/
structure LoadMetrics where
  total : MetricItem
  model : MetricItem
  textures : MetricItem
deriving DecidableEq, Repr

/-- The mutable module-level tracking state around `loadMetrics`. -/
structure TrackState where
  metrics : LoadMetrics
  textureLoadsInFlight : Nat
  textureLoadStart : Option Int
  modelLoadStart : Option Int
  modelSizeRecorded : Bool
  recordedTextureAssets : List String
  assetSizeCache : List (String × Int)
  hasRenderedFirstFrame : Bool
  loading : Bool
deriving DecidableEq, Repr

/-- The state right after `resetLoadTracking` ran with `loading` still
true (as in `initScene`). -/
def initialState : TrackState :=
  { metrics :=
      { total := { durationMs := none, sizeBytes := none }
        model := { durationMs := none, sizeBytes := none }
        textures := { durationMs := none, sizeBytes := none } }
    textureLoadsInFlight := 0
    textureLoadStart := none
    modelLoadStart := none
    modelSizeRecorded := false
    recordedTextureAssets := []
    assetSizeCache := []
    hasRenderedFirstFrame := false
    loading := true }

/-- `resetLoadTracking`: reset metrics and counters; `loading` is managed
separately and untouched, and the `assetSizeCache` is not cleared by this
function in the source either. -/
def resetLoadTracking (s : TrackState) : TrackState :=
  { s with
    metrics :=
      { total := { durationMs := none, sizeBytes := none }
        model := { durationMs := none, sizeBytes := none }
        textures := { durationMs := none, sizeBytes := none } }
    textureLoadsInFlight := 0
    textureLoadStart := none
    modelLoadStart := none
    modelSizeRecorded := false
    recordedTextureAssets := []
    hasRenderedFirstFrame := false }

/-- `updateTotalSizeMetric`: `modelBytes ?? 0` plus `textureBytes ?? 0`;
the total is that sum when positive and `null` otherwise. -/
def updateTotalSizeMetric (m : LoadMetrics) : LoadMetrics :=
  let modelBytes := m.model.sizeBytes.getD 0
  let textureBytes := m.textures.sizeBytes.getD 0
  let combined := modelBytes + textureBytes
  { m with total := { m.total with sizeBytes := if 0 < combined then some combined else none } }

/-- The value `updateTotalSizeMetric` assigns to `total.sizeBytes`, as a
standalone function of the other two size metrics. -/
def derivedTotalSize (m : LoadMetrics) : Option Int :=
  let combined := m.model.sizeBytes.getD 0 + m.textures.sizeBytes.getD 0
  if 0 < combined then some combined else none

/-- `markFirstFrameRendered` at wall-clock time `t`: a no-op while loading
or once already marked; otherwise `total.durationMs` is set to the current
time (`nowRelative()`) and the total size recomputed. -/
def markFirstFrameRendered (t : Int) (s : TrackState) : TrackState :=
  if s.hasRenderedFirstFrame || s.loading then s
  else
    let m := { s.metrics with total := { s.metrics.total with durationMs := some t } }
    { s with hasRenderedFirstFrame := true, metrics := updateTotalSizeMetric m }

/-- Asset kind of `recordAssetSize`. -/
inductive AssetType where
  | model
  | texture
deriving DecidableEq, Repr

/-- The `knownSize` expression of `recordAssetSize`: the size cache is
consulted first, falling back to the probed size (resource timing or
HEAD/range result). -/
def knownSizeOf (s : TrackState) (path : String) (probed : Option Int) : Option Int :=
  match lookupAssoc s.assetSizeCache path with
  | some n => some n
  | none => probed

/-- The metric assignments of `recordAssetSize` once a positive size `n` is
known: record the model size once, or add the texture size and remember the
URL. -/
def applyRecord (ty : AssetType) (path : String) (n : Int) (s : TrackState) : TrackState :=
  match ty with
  | .model =>
    { s with
      modelSizeRecorded := true
      metrics :=
        { s.metrics with model := { s.metrics.model with sizeBytes := some n } } }
  | .texture =>
    let existing := s.metrics.textures.sizeBytes.getD 0
    { s with
      recordedTextureAssets := path :: s.recordedTextureAssets
      metrics :=
        { s.metrics with
          textures := { s.metrics.textures with sizeBytes := some (existing + n) } } }

/-- `recordAssetSize` for an asset whose probed size is `probed`.  Only a
known strictly positive size updates the metrics (followed by
`updateTotalSizeMetric`), and a texture URL already in
`recordedTextureAssets` (resp. an already recorded model) is skipped. -/
def recordAssetSize (ty : AssetType) (path : String) (probed : Option Int)
    (s : TrackState) : TrackState :=
  if ty = .texture ∧ path ∈ s.recordedTextureAssets then s
  else if ty = .model ∧ s.modelSizeRecorded then s
  else
    match knownSizeOf s path probed with
    | none => s
    | some n =>
      if 0 < n then
        let s2 := applyRecord ty path n { s with assetSizeCache := (path, n) :: s.assetSizeCache }
        { s2 with metrics := updateTotalSizeMetric s2.metrics }
      else s

/-- `markModelLoadStart` at time `t`. -/
def markModelLoadStart (t : Int) (s : TrackState) : TrackState :=
  { s with
    modelLoadStart := some t
    metrics := { s.metrics with model := { s.metrics.model with durationMs := none } } }

/-- `markModelLoadEnd` at time `t` (the asynchronous `recordAssetSize` call
it fires is a separate `record` event). -/
def markModelLoadEnd (t : Int) (s : TrackState) : TrackState :=
  let s1 :=
    match s.modelLoadStart with
    | some t0 =>
      { s with
        metrics := { s.metrics with model := { s.metrics.model with durationMs := some (t - t0) } } }
    | none => s
  { s1 with modelLoadStart := none }

/-- `markTextureLoadStart` at time `t`: record the group start only when no
texture load is currently tracked, then bump the in-flight counter. -/
def markTextureLoadStart (t : Int) (s : TrackState) : TrackState :=
  let s1 :=
    if s.textureLoadStart = none then
      { s with
        textureLoadStart := some t
        metrics := { s.metrics with textures := { s.metrics.textures with durationMs := none } } }
    else s
  { s1 with textureLoadsInFlight := s1.textureLoadsInFlight + 1 }

/-- `markTextureLoadEnd` at time `t`: decrement the in-flight counter
(clamped at zero, `Math.max(0, n - 1)`); when it reaches zero and a group
start is recorded, assign `textures.durationMs` and clear the start. -/
def markTextureLoadEnd (t : Int) (s : TrackState) : TrackState :=
  let s1 := { s with textureLoadsInFlight := s.textureLoadsInFlight - 1 }
  if s1.textureLoadsInFlight = 0 then
    match s1.textureLoadStart with
    | some t0 =>
      { s1 with
        textureLoadStart := none
        metrics :=
          { s1.metrics with
            textures := { s1.metrics.textures with durationMs := some (t - t0) } } }
    | none => s1
  else s1

/-- Telemetry-relevant events of one scene session. -/
inductive Ev where
  | reset
  | loadingDone
  | modelStart (t : Int)
  | modelEnd (t : Int)
  | texStart (t : Int)
  | texEnd (t : Int)
  | record (ty : AssetType) (path : String) (probed : Option Int)
  | firstFrame (t : Int)
deriving DecidableEq, Repr

/-- One event applied to the tracking state. -/
def step (s : TrackState) : Ev → TrackState
  | .reset => resetLoadTracking s
  | .loadingDone => { s with loading := false }
  | .modelStart t => markModelLoadStart t s
  | .modelEnd t => markModelLoadEnd t s
  | .texStart t => markTextureLoadStart t s
  | .texEnd t => markTextureLoadEnd t s
  | .record ty path probed => recordAssetSize ty path probed s
  | .firstFrame t => markFirstFrameRendered t s

/-- Run a list of events. -/
def run (s : TrackState) (evs : List Ev) : TrackState :=
  evs.foldl step s

/-- `ClosesFrom n evs`: starting with `n ≥ 1` texture loads in flight, the
events of `evs` are texture starts and ends whose running in-flight count
stays strictly positive up to, and reaches zero exactly at, the final
event. -/
inductive ClosesFrom : Nat → List Ev → Prop where
  | lastEnd (t : Int) : ClosesFrom 1 [Ev.texEnd t]
  | moreStart (t : Int) (n : Nat) (evs : List Ev) :
      1 ≤ n → ClosesFrom (n + 1) evs → ClosesFrom n (Ev.texStart t :: evs)
  | moreEnd (t : Int) (n : Nat) (evs : List Ev) :
      ClosesFrom n evs → ClosesFrom (n + 1) (Ev.texEnd t :: evs)

/-- The time of the last event when it is a texture-load completion. -/
def lastTexEndTime (evs : List Ev) : Option Int :=
  match evs.getLast? with
  | some (Ev.texEnd t) => some t
  | _ => none

end Metrics

/-! ## Texture cache (`loadTexture`, both sources)

`loadTexture` resolves from `textureCache` when the path is present;
otherwise it dispatches a loader fetch, and only the load-success callback
inserts the decoded texture into the cache.  Decoded texture handles are
modelled by the numbers of a counter, so that textures decoded by distinct
fetches are distinct handles. -/

namespace Cache

/-- The module state relevant to `loadTexture`: the texture cache, the
number of loader fetches dispatched so far, and the handle counter. -/
structure CacheState where
  textureCache : List (String × Nat)
  fetchCount : Nat
  nextHandle : Nat
deriving DecidableEq, Repr

/-- Fresh state (`textureCache` empty, as after `initScene`). -/
def initState : CacheState :=
  { textureCache := [], fetchCount := 0, nextHandle := 0 }

/-- What a call of `loadTexture(path, ...)` does synchronously. -/
inductive CallOutcome where
  /-- cache hit: the promise resolves immediately with the cached handle. -/
  | cached (handle : Nat)
  /-- cache miss: a loader fetch for the path is dispatched. -/
  | fetchStarted
deriving DecidableEq, Repr

/-- The synchronous part of `loadTexture` (variant A lines 338-349, variant
B lines 391-408): on a cache hit resolve the cached texture; on a miss
dispatch a fetch. -/
def loadTextureCall (path : String) (s : CacheState) : CallOutcome × CacheState :=
  match lookupAssoc s.textureCache path with
  | some handle => (.cached handle, s)
  | none => (.fetchStarted, { s with fetchCount := s.fetchCount + 1 })

/-- The load-success callback of a dispatched fetch (variant A lines
352-358, variant B lines 411-421): the decoder yields a fresh texture
handle, which is inserted into the cache (`textureCache.set`) and resolves
the promise. -/
def loadTextureOnLoad (path : String) (s : CacheState) : Nat × CacheState :=
  let handle := s.nextHandle
  (handle,
    { s with
      textureCache := (path, handle) :: s.textureCache
      nextHandle := handle + 1 })

end Cache

/-! ## Derived predicates and concrete scenario data -/

namespace Metrics

/-- The size part of the spec's derivation invariant: `total.sizeBytes` is
the value `updateTotalSizeMetric` derives from the other two size metrics,
and every known size metric is strictly positive. -/
def SizeInv (s : TrackState) : Prop :=
  s.metrics.total.sizeBytes = derivedTotalSize s.metrics
  ∧ (∀ n, s.metrics.model.sizeBytes = some n → 0 < n)
  ∧ (∀ n, s.metrics.textures.sizeBytes = some n → 0 < n)

end Metrics

/-- The manifest of the C6 scenario: part `"Gear_Housing"` with single
variant `"matMetal"` whose only declared channel is `BaseColor: "a.png"`. -/
def gearManifest : VA.Manifest :=
  [("Gear_Housing", [("matMetal", [(TextureChannel.BaseColor, "a.png")])])]

/-- A two-part manifest whose keys can both occur inside one node name. -/
def housingGearManifest : VA.Manifest :=
  [("Housing", []), ("Gear", [])]

/-- A two-variant part entry, `"matMetal"` declared first. -/
def twoVariantEntry : VA.PartEntry :=
  [("matMetal", []), ("matPaint", [])]

/-! ## Theorems -/

/-! ### Helper lemmas about the variant-A resolver -/

namespace VA

theorem findPartKey_eq_none (meta : List (String × String)) :
    ∀ chain : List String,
      (∀ name ∈ chain, ∀ km ∈ meta, nodeHit km.2 name = false) →
      findPartKeyFromObject meta chain = none := by
  intro chain
  induction chain with
  | nil => intro _; rfl
  | cons name rest ih =>
    intro h
    simp only [findPartKeyFromObject]
    by_cases he : (strTrim name).isEmpty = true
    · rw [if_pos he]
      exact ih (fun n hn => h n (List.mem_cons_of_mem _ hn))
    · rw [if_neg he]
      rw [Bool.not_eq_true] at he
      have hnone :
          meta.find? (fun km =>
            strStartsWith (normalizeKey (strTrim name)) km.2 ||
              strIncludes (normalizeKey (strTrim name)) km.2) = none := by
        rw [List.find?_eq_none]
        intro km hkm hpred
        have := h name (List.mem_cons_self _ _) km hkm
        simp only [nodeHit, he, Bool.not_false, Bool.true_and] at this
        exact absurd hpred (by simp [this])
      rw [hnone]
      exact ih (fun n hn => h n (List.mem_cons_of_mem _ hn))


theorem findPartKey_unique_match (meta : List (String × String)) (K : String) :
    ∀ chain : List String,
      (K, normalizeKey K) ∈ meta →
      (∃ name ∈ chain, nodeHit (normalizeKey K) name = true) →
      (∀ name ∈ chain, ∀ km ∈ meta, nodeHit km.2 name = true → km.1 = K) →
      findPartKeyFromObject meta chain = some K := by
  intro chain
  induction chain with
  | nil =>
    intro _ hex _
    obtain ⟨_, h, _⟩ := hex
    exact absurd h (List.not_mem_nil _)
  | cons name rest ih =>
    intro hK hex huniq
    simp only [findPartKeyFromObject]
    by_cases he : (strTrim name).isEmpty = true
    · rw [if_pos he]
      refine ih hK ?_ (fun n hn => huniq n (List.mem_cons_of_mem _ hn))
      obtain ⟨n, hn, hhit⟩ := hex
      rcases List.mem_cons.mp hn with rfl | hn'
      · exact absurd hhit (by simp [nodeHit, he])
      · exact ⟨n, hn', hhit⟩
    · rw [if_neg he]
      rw [Bool.not_eq_true] at he
      cases hfind :
          meta.find? (fun km =>
            strStartsWith (normalizeKey (strTrim name)) km.2 ||
              strIncludes (normalizeKey (strTrim name)) km.2) with
      | some km =>
        have hmem := List.mem_of_find?_eq_some hfind
        have hpred := List.find?_some hfind
        have hhit : nodeHit km.2 name = true := by
          simp only [nodeHit, he, Bool.not_false, Bool.true_and]
          exact hpred
        exact congrArg some (huniq name (List.mem_cons_self _ _) km hmem hhit)
      | none =>
        refine ih hK ?_ (fun n hn => huniq n (List.mem_cons_of_mem _ hn))
        obtain ⟨n, hn, hhit⟩ := hex
        rcases List.mem_cons.mp hn with rfl | hn'
        · have hKnone := (List.find?_eq_none.mp hfind) _ hK
          simp only [nodeHit, he, Bool.not_false, Bool.true_and] at hhit
          exact absurd hhit (by simpa using hKnone)
        · exact ⟨n, hn', hhit⟩

end VA

/-! ### Claim C1 -/

/-- C1, counterexample: with manifest keys `"Housing"` then `"Gear"`, the
mesh name `"Gear_Housing"` contains the normalized key `"Gear"` (so the
claim demands the resolver return `"Gear"`), but `findPartKeyFromObject`
returns `"Housing"`, the first-declared key whose normalized form the name
contains. -/
theorem C1_resolver_counterexample :
    VA.nodeHit (normalizeKey "Gear") "Gear_Housing" = true
    ∧ "Gear" ∈ housingGearManifest.map Prod.fst
    ∧ VA.findPartKeyFromObject (VA.manifestPartMeta housingGearManifest) ["Gear_Housing"]
        = some "Housing"
    ∧ ("Housing" : String) ≠ "Gear" := by
  decide

/-- C1 (amended): the walk starts at the mesh itself and proceeds upward;
at the first (closest) node whose trimmed name is non-empty and matches
some manifest key, the first-declared matching key wins.  Consequently,
when `K` is a manifest key, some node of the chain matches `K`, and `K` is
the only manifest key matched by any node of the chain, the resolver
returns `K`. -/
theorem C1_resolver_unique_match (manifest : VA.Manifest) (chain : List String) (K : String)
    (hK : K ∈ manifest.map Prod.fst)
    (hex : ∃ name ∈ chain, VA.nodeHit (normalizeKey K) name = true)
    (huniq : ∀ name ∈ chain, ∀ km ∈ VA.manifestPartMeta manifest,
      VA.nodeHit km.2 name = true → km.1 = K) :
    VA.findPartKeyFromObject (VA.manifestPartMeta manifest) chain = some K := by
  have hKmeta : (K, normalizeKey K) ∈ VA.manifestPartMeta manifest := by
    obtain ⟨kv, hkv, hfst⟩ := List.mem_map.mp hK
    exact List.mem_map.mpr ⟨kv, hkv, by rw [hfst]⟩
  exact VA.findPartKey_unique_match _ K chain hKmeta hex huniq

/-- C1, witness: in the single-key manifest of the C6 scenario, an ancestor
name containing `"Gear_Housing"` resolves to that key. -/
theorem C1_resolver_unique_match_witness :
    VA.findPartKeyFromObject (VA.manifestPartMeta gearManifest) ["node", "Gear_Housing_22"]
      = some "Gear_Housing" :=
  C1_resolver_unique_match gearManifest ["node", "Gear_Housing_22"] "Gear_Housing"
    (by decide) (by decide) (by decide)

/-! ### Claim C6 -/

/-- C6: in the variant-A build with manifest part `"Gear_Housing"`, variant
`"matMetal"`, channel `BaseColor: "a.png"`, the mesh named
`"Gear_Housing_mesh_matMetal"` resolves to part key `"Gear_Housing"` and
variant key `"matMetal"`, and building its material issues exactly one
texture request, at `<textureBasePath>/Gear_Housing/a.png`. -/
theorem C6_gearHousing_scenario :
    VA.resolveManifestInfo gearManifest "Gear_Housing_mesh_matMetal" [] none
      = some { partKey := "Gear_Housing", textures := [(TextureChannel.BaseColor, "a.png")] }
    ∧ VA.resolveVariantKey [("matMetal", [(TextureChannel.BaseColor, "a.png")])] none
        "Gear_Housing_mesh_matMetal" = some "matMetal"
    ∧ VA.buildMaterialForMesh gearManifest "Gear_Housing_mesh_matMetal" [] none
      = some [(TextureChannel.BaseColor, VA.textureBasePath ++ "/Gear_Housing/a.png")] := by
  decide

/-! ### Claim C7 -/

/-- C7, counterexample: a mesh none of whose names matches any manifest key
but whose existing material is already a `MeshStandardMaterial` keeps that
material; the flat gray default is not installed. -/
theorem C7_fallback_counterexample :
    (∀ name ∈ ["Widget"], ∀ km ∈ VA.manifestPartMeta gearManifest,
      VA.nodeHit km.2 name = false)
    ∧ VA.applyMaterialsToMesh gearManifest "Widget" []
        { name := "plainsteel", isStandard := true } = .kept
    ∧ VA.AppliedMaterial.kept ≠ .flatDefault defaultFlatMaterial := by
  decide

/-- C7 (amended): when no node name of the mesh's chain matches any
manifest key, `buildMaterialForMesh` returns `null`, and the mesh's
material falls back to the flat gray default (color `0x777777`, metalness
0.5, roughness 0.6) exactly when the existing material is not already a
`MeshStandardMaterial`; otherwise the existing material is kept. -/
theorem C7_noMatch_flat_fallback (manifest : VA.Manifest) (meshName : String)
    (ancestors : List String) (existing : ExistingMaterial)
    (h : ∀ name ∈ meshName :: ancestors, ∀ km ∈ VA.manifestPartMeta manifest,
      VA.nodeHit km.2 name = false) :
    VA.buildMaterialForMesh manifest meshName ancestors (some existing.name) = none
    ∧ VA.applyMaterialsToMesh manifest meshName ancestors existing
      = (if existing.isStandard then .kept else .flatDefault defaultFlatMaterial) := by
  have hnone := VA.findPartKey_eq_none (VA.manifestPartMeta manifest) (meshName :: ancestors) h
  have hbuild :
      VA.buildMaterialForMesh manifest meshName ancestors (some existing.name) = none := by
    simp [VA.buildMaterialForMesh, VA.resolveManifestInfo, hnone]
  refine ⟨hbuild, ?_⟩
  simp [VA.applyMaterialsToMesh, hbuild]

/-- C7, witness: a non-matching mesh with a non-standard existing material
receives the flat gray default. -/
theorem C7_noMatch_flat_fallback_witness :
    VA.applyMaterialsToMesh gearManifest "Widget" []
      { name := "plainphong", isStandard := false }
      = .flatDefault defaultFlatMaterial := by
  have h := (C7_noMatch_flat_fallback gearManifest "Widget" []
    { name := "plainphong", isStandard := false } (by decide)).2
  exact h.trans rfl

/-! ### Claim C2 -/

/-- C2, counterexample: the material name `"steel"` has no
`mat[a-z0-9]+` match, yet the resolver does not yield the part's first
declared variant `"matMetal"`: it falls back to the mesh name
`"part_matPaint"`, whose token selects `"matPaint"`. -/
theorem C2_variant_counterexample :
    extractVariantName (some "steel") = none
    ∧ VA.resolveVariantKey twoVariantEntry (some "steel") "part_matPaint" = some "matPaint"
    ∧ (twoVariantEntry.map Prod.fst).head? = some "matMetal"
    ∧ some "matPaint" ≠ some "matMetal" := by
  decide

/-- C2 (amended): the variant token is the leftmost `mat[a-z0-9]+` match
of the material name, falling back to the mesh name.  When the extraction
yields a token whose normalized form equals the normalized key of some
declared variant, the first such declared variant (non-empty) is selected;
when neither the material name nor the mesh name yields a token, the
part's first declared variant is selected. -/
theorem C2_variant_resolution (partEntry : VA.PartEntry) (materialName : Option String)
    (meshName : String) :
    (∀ tok key,
        extractVariantName materialName = some tok →
        (partEntry.map Prod.fst).find?
          (fun k => normalizeKey k == normalizeKey tok) = some key →
        key ≠ "" →
        VA.resolveVariantKey partEntry materialName meshName = some key)
    ∧ (extractVariantName materialName = none →
        extractVariantName (some meshName) = none →
        VA.resolveVariantKey partEntry materialName meshName
          = (partEntry.map Prod.fst).head?) := by
  constructor
  · intro tok key htok hfind hne
    have hkey : key.isEmpty = false := by
      cases hk : key.isEmpty with
      | false => rfl
      | true => exact absurd ((String.isEmpty_iff key).mp hk) hne
    simp [VA.resolveVariantKey, htok, hfind, jsOr, jsFalsy, hkey]
  · intro h1 h2
    simp [VA.resolveVariantKey, h1, h2, jsOr, jsFalsy]

/-- C2, witness: a material name carrying `"matpaint"` selects the
declared `"matPaint"` variant, and a token-free material and mesh name
yield the first declared variant `"matMetal"`. -/
theorem C2_variant_resolution_witness :
    VA.resolveVariantKey twoVariantEntry (some "x_matpaint_y") "mesh" = some "matPaint"
    ∧ VA.resolveVariantKey twoVariantEntry (some "steel") "plain" = some "matMetal" := by
  constructor
  · exact (C2_variant_resolution twoVariantEntry (some "x_matpaint_y") "mesh").1
      "matpaint" "matPaint" (by decide) (by decide) (by decide)
  · exact ((C2_variant_resolution twoVariantEntry (some "steel") "plain").2
      (by decide) (by decide)).trans (by decide)

/-! ### Claim C8 -/

theorem VB.collectLoop_eq_takeWhile (l : List (List Char))
    (h : ∀ t ∈ l, t.isEmpty = false) :
    VB.collectLoop l = l.takeWhile (fun t => !VB.startsWithMat t) := by
  induction l with
  | nil => rfl
  | cons t rest ih =>
    have ht := h t (List.mem_cons_self _ _)
    rw [VB.collectLoop, List.takeWhile_cons]
    rw [ht]
    by_cases hm : VB.startsWithMat t = true
    · simp [hm]
    · rw [Bool.not_eq_true] at hm
      simp [hm, ih (fun u hu => h u (List.mem_cons_of_mem _ hu))]

/-- C8, counterexample: the candidate `"2_pump_low-7"` contains `_low`
before a punctuation character (a word boundary that is not the end of the
string); the source strips it (`/_low\b/g`), giving part key `"2_pump7"`,
while the claim's trailing-only stripping would give `"2_pump_low7"`. -/
theorem C8_extract_counterexample :
    VB.extractPartKeyFromCandidate (some "2_pump_low-7") = some "2_pump7"
    ∧ VB.claimPartKeyOfCandidate "2_pump_low-7" = some "2_pump_low7"
    ∧ VB.extractPartKeyFromCandidate (some "2_pump_low-7")
        ≠ VB.claimPartKeyOfCandidate "2_pump_low-7" := by
  decide

/-- C8 (amended): the variant-B part-key extraction equals the spec-worded
pipeline — collapse whitespace runs to underscore, remove every `_low`
followed by a word boundary (end of string or a non-word character; this
includes, but is not limited to, a trailing `_low`), strip
non-alphanumeric/underscore characters and lowercase, split on underscore
into non-empty tokens, collect from the first purely-numeric token up to
but excluding the first token beginning with `mat`, accept only when at
least 2 tokens were collected, and strip one trailing `_<digits>` instance
suffix from the joined result. -/
theorem C8_extractPartKey_pipeline (s : String) :
    VB.extractPartKeyFromCandidate (some s) = VB.specPartKeyOfCandidate s := by
  rw [VB.extractPartKeyFromCandidate, VB.specPartKeyOfCandidate]
  by_cases hs : s.isEmpty = true
  · rw [if_pos hs, if_pos hs]
  · rw [if_neg hs, if_neg hs]
    simp only [String.toList]
    cases hidx :
        ((VB.splitUnderscore (VB.sanitizeName s).data).filter
          (fun t => !t.isEmpty)).findIdx? VB.isNumericToken with
    | none => simp [hidx]
    | some index =>
      have hcoll :
          VB.collectLoop
              (((VB.splitUnderscore (VB.sanitizeName s).data).filter
                (fun t => !t.isEmpty)).drop index)
            = (((VB.splitUnderscore (VB.sanitizeName s).data).filter
                (fun t => !t.isEmpty)).drop index).takeWhile
                (fun t => !VB.startsWithMat t) := by
        apply VB.collectLoop_eq_takeWhile
        intro t ht
        have := List.mem_of_mem_drop ht
        have hp := (List.mem_filter.mp this).2
        simpa using hp
      simp only [hidx, Option.some_bind, hcoll]

/-! ### Claim C9 -/

/-- C9: in the variant-B build, `buildMaterialForMesh` returns a material
for every mesh and material name (when no variant token is found anywhere,
`resolveVariantKey` yields the hardcoded default `"matmetal"`), so the
flat-gray fallback branch of `applyMaterialsToMesh` is unreachable. -/
theorem C9_buildMaterial_total (meshName : String) (materialName : Option String)
    (ancestors : List String) (existing : ExistingMaterial) :
    (VB.buildMaterialForMesh meshName materialName ancestors).isSome = true
    ∧ VB.resolveVariantKey none = "matmetal"
    ∧ (∃ m, VB.applyMaterialsToMesh meshName ancestors existing = .replaced m)
    ∧ ∀ fm, VB.applyMaterialsToMesh meshName ancestors existing ≠ .flatDefault fm := by
  refine ⟨rfl, rfl, ⟨_, rfl⟩, ?_⟩
  intro fm h
  rw [show VB.applyMaterialsToMesh meshName ancestors existing
      = .replaced ((VB.buildMaterialForMesh meshName (some existing.name) ancestors).getD
          { partKey := none, variantKey := "", requests := [] }) from rfl] at h
  exact VB.AppliedMaterial.noConfusion h

/-! ### Claim C10 -/

theorem VB.pushTextureDebug_eq_drop (t : List VB.TextureDebugEntry)
    (e : VB.TextureDebugEntry) :
    VB.pushTextureDebug t e = (t ++ [e]).drop ((t ++ [e]).length - 51) := by
  rw [VB.pushTextureDebug, VB.jsSliceLast]
  have hlen : (t ++ [e]).length - 51 = t.length - 50 := by
    simp only [List.length_append, List.length_cons, List.length_nil]
    omega
  rw [hlen, List.drop_append_of_le_length (Nat.sub_le t.length 50)]

theorem VB.pushTextureDebug_foldl_aux (es : List VB.TextureDebugEntry) :
    ∀ t : List VB.TextureDebugEntry, t.length ≤ 51 →
      es.foldl VB.pushTextureDebug t = (t ++ es).drop ((t ++ es).length - 51) := by
  induction es with
  | nil =>
    intro t ht
    simp only [List.foldl_nil, List.append_nil]
    rw [show t.length - 51 = 0 from by omega, List.drop_zero]
  | cons e es ih =>
    intro t ht
    rw [List.foldl_cons]
    have hplen : (VB.pushTextureDebug t e).length ≤ 51 := by
      rw [VB.pushTextureDebug, VB.jsSliceLast]
      simp only [List.length_append, List.length_drop, List.length_cons, List.length_nil]
      omega
    rw [ih (VB.pushTextureDebug t e) hplen]
    rw [VB.pushTextureDebug_eq_drop]
    have hk : (t ++ [e]).length - 51 ≤ (t ++ [e]).length := Nat.sub_le _ _
    rw [← List.drop_append_of_le_length hk]
    rw [List.drop_drop]
    have hassoc : t ++ e :: es = (t ++ [e]) ++ es := by simp
    rw [hassoc]
    congr 1
    simp only [List.length_append, List.length_drop, List.length_cons, List.length_nil]
    omega

/-- The debug trace after any sequence of pushes from the empty trace: the
most recent `min (count, 51)` entries. -/
theorem VB.pushTextureDebug_foldl (es : List VB.TextureDebugEntry) :
    es.foldl VB.pushTextureDebug [] = es.drop (es.length - 51) := by
  have h := VB.pushTextureDebug_foldl_aux es [] (by simp)
  simpa using h

/-- C10, counterexample: after 51 pushes from an empty trace, the debug
trace holds 51 entries — more than the claimed bound of 50. -/
theorem C10_debugTrace_counterexample :
    ¬(((List.replicate 51
        ({ path := "p", status := .success, part := none, variant := none }
          : VB.TextureDebugEntry)).foldl VB.pushTextureDebug []).length ≤ 50) := by
  rw [VB.pushTextureDebug_foldl]
  simp

/-- C10 (amended): each push keeps the previous trace's last 50 entries
and appends the new one, so after any sequence of pushes from an empty
trace the trace holds exactly the most recent `min (count, 51)` entries —
it is bounded by 51, not 50. -/
theorem C10_debugTrace_bounded (es : List VB.TextureDebugEntry) :
    es.foldl VB.pushTextureDebug [] = es.drop (es.length - 51)
    ∧ (es.foldl VB.pushTextureDebug []).length ≤ 51 := by
  refine ⟨VB.pushTextureDebug_foldl es, ?_⟩
  rw [VB.pushTextureDebug_foldl]
  simp only [List.length_drop]
  omega

/-! ### Claim C4 -/

/-- C4, counterexample: two calls of `loadTexture` for the same path that
both happen before either load completes (the schedule actually produced by
`Promise.all` over meshes sharing a texture) dispatch two fetches, because
the cache is only written in the load-success callback; and the two
completions then resolve to two distinct decoded handles. -/
theorem C4_cache_counterexample :
    (Cache.loadTextureCall "a" (Cache.loadTextureCall "a" Cache.initState).2).2.fetchCount = 2
    ∧ (Cache.loadTextureCall "a" (Cache.loadTextureCall "a" Cache.initState).2).2.fetchCount ≠ 1
    ∧ (Cache.loadTextureOnLoad "a"
        (Cache.loadTextureCall "a" (Cache.loadTextureCall "a" Cache.initState).2).2).1
      ≠ (Cache.loadTextureOnLoad "a"
          (Cache.loadTextureOnLoad "a"
            (Cache.loadTextureCall "a" (Cache.loadTextureCall "a" Cache.initState).2).2).2).1 := by
  decide

/-- C4 (amended): for a path not yet cached, a `loadTexture` call followed
by its load completion followed by a second `loadTexture` call performs
exactly one fetch in total: the first call dispatches the only fetch, and
the second call resolves immediately from the cache with the very handle
installed by the completion. -/
theorem C4_cache_sequential (s : Cache.CacheState) (path : String)
    (h : lookupAssoc s.textureCache path = none) :
    (Cache.loadTextureCall path s).1 = .fetchStarted
    ∧ (Cache.loadTextureCall path s).2.fetchCount = s.fetchCount + 1
    ∧ (Cache.loadTextureCall path
        (Cache.loadTextureOnLoad path (Cache.loadTextureCall path s).2).2).1
      = .cached (Cache.loadTextureOnLoad path (Cache.loadTextureCall path s).2).1
    ∧ (Cache.loadTextureCall path
        (Cache.loadTextureOnLoad path (Cache.loadTextureCall path s).2).2).2.fetchCount
      = (Cache.loadTextureCall path s).2.fetchCount := by
  have hcall1 : Cache.loadTextureCall path s
      = (.fetchStarted, { s with fetchCount := s.fetchCount + 1 }) := by
    rw [Cache.loadTextureCall, h]
  have hlook2 :
      lookupAssoc (Cache.loadTextureOnLoad path (Cache.loadTextureCall path s).2).2.textureCache
        path
      = some (Cache.loadTextureOnLoad path (Cache.loadTextureCall path s).2).1 := by
    rw [Cache.loadTextureOnLoad]
    simp [lookupAssoc, List.find?]
  refine ⟨by rw [hcall1], by rw [hcall1], ?_, ?_⟩
  · rw [Cache.loadTextureCall, hlook2]
  · rw [Cache.loadTextureCall, hlook2]
    rfl

/-- C4, witness: from the fresh state, the call-complete-call sequence for
path `"a"` leaves the fetch count at one and serves the second call from
the cache with handle 0. -/
theorem C4_cache_sequential_witness :
    (Cache.loadTextureCall "a"
      (Cache.loadTextureOnLoad "a" (Cache.loadTextureCall "a" Cache.initState).2).2).1
      = .cached 0
    ∧ (Cache.loadTextureCall "a"
        (Cache.loadTextureOnLoad "a" (Cache.loadTextureCall "a" Cache.initState).2).2).2.fetchCount
      = 1 := by
  have h := C4_cache_sequential Cache.initState "a" rfl
  exact ⟨h.2.2.1.trans (by decide), h.2.2.2.trans (by decide)⟩

/-! ### Claim C3 -/

namespace Metrics

theorem sizeInv_step (s : TrackState) (e : Ev) (h : SizeInv s) : SizeInv (step s e) := by
  obtain ⟨h1, h2, h3⟩ := h
  cases e with
  | reset =>
    exact ⟨rfl, fun n hn => Option.noConfusion hn, fun n hn => Option.noConfusion hn⟩
  | loadingDone => exact ⟨h1, h2, h3⟩
  | modelStart t => exact ⟨h1, h2, h3⟩
  | modelEnd t =>
    show SizeInv (markModelLoadEnd t s)
    rw [markModelLoadEnd]
    cases s.modelLoadStart with
    | some t0 => exact ⟨h1, h2, h3⟩
    | none => exact ⟨h1, h2, h3⟩
  | texStart t =>
    show SizeInv (markTextureLoadStart t s)
    rw [markTextureLoadStart]
    split
    · exact ⟨h1, h2, h3⟩
    · exact ⟨h1, h2, h3⟩
  | texEnd t =>
    show SizeInv (markTextureLoadEnd t s)
    rw [markTextureLoadEnd]
    split
    · split
      · exact ⟨h1, h2, h3⟩
      · exact ⟨h1, h2, h3⟩
    · exact ⟨h1, h2, h3⟩
  | firstFrame t =>
    show SizeInv (markFirstFrameRendered t s)
    rw [markFirstFrameRendered]
    split
    · exact ⟨h1, h2, h3⟩
    · exact ⟨rfl, h2, h3⟩
  | record ty path probed =>
    show SizeInv (recordAssetSize ty path probed s)
    rw [recordAssetSize]
    split
    · exact ⟨h1, h2, h3⟩
    · split
      · exact ⟨h1, h2, h3⟩
      · split
        · exact ⟨h1, h2, h3⟩
        · next n heq =>
          split
          · next hpos =>
            cases ty with
            | model =>
              refine ⟨rfl, ?_, h3⟩
              intro k hk
              have hnk : n = k := Option.some.inj hk
              omega
            | texture =>
              refine ⟨rfl, h2, ?_⟩
              intro k hk
              have hex : 0 ≤ s.metrics.textures.sizeBytes.getD 0 := by
                cases htx : s.metrics.textures.sizeBytes with
                | none => simp
                | some m => simpa using le_of_lt (h3 m htx)
              have hnk : s.metrics.textures.sizeBytes.getD 0 + n = k :=
                Option.some.inj hk
              omega
          · exact ⟨h1, h2, h3⟩


theorem sizeInv_run (evs : List Ev) : ∀ s, SizeInv s → SizeInv (run s evs) := by
  induction evs with
  | nil => intro s h; exact h
  | cons e evs ih => intro s h; exact ih _ (sizeInv_step s e h)

theorem sizeInv_initial : SizeInv initialState :=
  ⟨rfl, fun _ hn => Option.noConfusion hn, fun _ hn => Option.noConfusion hn⟩

end Metrics

/-- C3, counterexample: `total.durationMs` is not derived from the model
and texture duration metrics.  Two event traces that produce identical
model and texture durations (10 ms and 20 ms) but whose first frame
renders at different times end with different totals (1000 and 2000), and
the total is not the component sum either. -/
theorem C3_totalDuration_counterexample :
    (Metrics.run Metrics.initialState
      [.modelStart 0, .modelEnd 10, .texStart 100, .texEnd 120, .loadingDone,
        .firstFrame 1000]).metrics.model.durationMs = some 10
    ∧ (Metrics.run Metrics.initialState
        [.modelStart 0, .modelEnd 10, .texStart 100, .texEnd 120, .loadingDone,
          .firstFrame 1000]).metrics.textures.durationMs = some 20
    ∧ (Metrics.run Metrics.initialState
        [.modelStart 0, .modelEnd 10, .texStart 100, .texEnd 120, .loadingDone,
          .firstFrame 1000]).metrics.total.durationMs = some 1000
    ∧ (Metrics.run Metrics.initialState
        [.modelStart 0, .modelEnd 10, .texStart 100, .texEnd 120, .loadingDone,
          .firstFrame 1000]).metrics.total.durationMs ≠ some (10 + 20)
    ∧ (Metrics.run Metrics.initialState
        [.modelStart 0, .modelEnd 10, .texStart 100, .texEnd 120, .loadingDone,
          .firstFrame 2000]).metrics.model.durationMs = some 10
    ∧ (Metrics.run Metrics.initialState
        [.modelStart 0, .modelEnd 10, .texStart 100, .texEnd 120, .loadingDone,
          .firstFrame 2000]).metrics.textures.durationMs = some 20
    ∧ (Metrics.run Metrics.initialState
        [.modelStart 0, .modelEnd 10, .texStart 100, .texEnd 120, .loadingDone,
          .firstFrame 2000]).metrics.total.durationMs
      ≠ (Metrics.run Metrics.initialState
          [.modelStart 0, .modelEnd 10, .texStart 100, .texEnd 120, .loadingDone,
            .firstFrame 1000]).metrics.total.durationMs := by
  decide

/-- C3 (amended): after any event sequence, `total.sizeBytes` equals
`modelBytes + textureBytes` whenever either is known and is unknown
exactly when both are unknown; `total.durationMs`, however, is not derived
from the other duration metrics: it is the wall-clock timestamp at which
the first frame renders after loading has completed. -/
theorem C3_totalMetrics_derivation (evs : List Metrics.Ev) :
    ((Metrics.run Metrics.initialState evs).metrics.model.sizeBytes ≠ none
        ∨ (Metrics.run Metrics.initialState evs).metrics.textures.sizeBytes ≠ none →
      (Metrics.run Metrics.initialState evs).metrics.total.sizeBytes
        = some ((Metrics.run Metrics.initialState evs).metrics.model.sizeBytes.getD 0
            + (Metrics.run Metrics.initialState evs).metrics.textures.sizeBytes.getD 0))
    ∧ ((Metrics.run Metrics.initialState evs).metrics.total.sizeBytes = none
        ↔ (Metrics.run Metrics.initialState evs).metrics.model.sizeBytes = none
          ∧ (Metrics.run Metrics.initialState evs).metrics.textures.sizeBytes = none)
    ∧ (∀ evs' t, evs = evs' ++ [Metrics.Ev.firstFrame t] →
        (Metrics.run Metrics.initialState evs').hasRenderedFirstFrame = false →
        (Metrics.run Metrics.initialState evs').loading = false →
        (Metrics.run Metrics.initialState evs).metrics.total.durationMs = some t) := by
  obtain ⟨h1, h2, h3⟩ :=
    Metrics.sizeInv_run evs Metrics.initialState Metrics.sizeInv_initial
  have hforward :
      (Metrics.run Metrics.initialState evs).metrics.model.sizeBytes ≠ none
        ∨ (Metrics.run Metrics.initialState evs).metrics.textures.sizeBytes ≠ none →
      (Metrics.run Metrics.initialState evs).metrics.total.sizeBytes
        = some ((Metrics.run Metrics.initialState evs).metrics.model.sizeBytes.getD 0
            + (Metrics.run Metrics.initialState evs).metrics.textures.sizeBytes.getD 0) := by
    intro hor
    have hm0 : 0 ≤ (Metrics.run Metrics.initialState evs).metrics.model.sizeBytes.getD 0 := by
      cases hmx : (Metrics.run Metrics.initialState evs).metrics.model.sizeBytes with
      | none => simp
      | some k => simpa using le_of_lt (h2 k hmx)
    have ht0 : 0 ≤ (Metrics.run Metrics.initialState evs).metrics.textures.sizeBytes.getD 0 := by
      cases htx : (Metrics.run Metrics.initialState evs).metrics.textures.sizeBytes with
      | none => simp
      | some k => simpa using le_of_lt (h3 k htx)
    have hpos : 0 < (Metrics.run Metrics.initialState evs).metrics.model.sizeBytes.getD 0
        + (Metrics.run Metrics.initialState evs).metrics.textures.sizeBytes.getD 0 := by
      rcases hor with hne | hne
      · cases hmx : (Metrics.run Metrics.initialState evs).metrics.model.sizeBytes with
        | none => exact absurd hmx hne
        | some k =>
          have hk := h2 k hmx
          simp only [Option.getD_some]
          omega
      · cases htx : (Metrics.run Metrics.initialState evs).metrics.textures.sizeBytes with
        | none => exact absurd htx hne
        | some k =>
          have hk := h3 k htx
          simp only [Option.getD_some]
          omega
    rw [h1]
    simp only [Metrics.derivedTotalSize]
    rw [if_pos hpos]
  refine ⟨hforward, ⟨?_, ?_⟩, ?_⟩
  · intro htot
    cases hmx : (Metrics.run Metrics.initialState evs).metrics.model.sizeBytes with
    | some k =>
      have := hforward (Or.inl (by rw [hmx]; exact fun hc => Option.noConfusion hc))
      rw [htot] at this
      exact Option.noConfusion this
    | none =>
      cases htx : (Metrics.run Metrics.initialState evs).metrics.textures.sizeBytes with
      | some k =>
        have := hforward (Or.inr (by rw [htx]; exact fun hc => Option.noConfusion hc))
        rw [htot] at this
        exact Option.noConfusion this
      | none => exact ⟨rfl, rfl⟩
  · rintro ⟨hm, ht⟩
    rw [h1]
    simp only [Metrics.derivedTotalSize, hm, ht, Option.getD_none]
    norm_num
  · intro evs' t heq hrend hload
    subst heq
    show (Metrics.run Metrics.initialState (evs' ++ [Metrics.Ev.firstFrame t])).metrics.total.durationMs = some t
    rw [Metrics.run, List.foldl_append]
    show (Metrics.step (Metrics.run Metrics.initialState evs')
      (Metrics.Ev.firstFrame t)).metrics.total.durationMs = some t
    show (Metrics.markFirstFrameRendered t
      (Metrics.run Metrics.initialState evs')).metrics.total.durationMs = some t
    rw [Metrics.markFirstFrameRendered, hrend, hload]
    simp only [Bool.or_self, Bool.false_eq_true, if_false]
    rfl

/-- C3, witness: recording a 5-byte texture makes the total size 5 with
the model size unknown, and a first frame rendered at time 7 after loading
completed sets the total duration to 7. -/
theorem C3_totalMetrics_derivation_witness :
    (Metrics.run Metrics.initialState
      [Metrics.Ev.record .texture "a" (some 5)]).metrics.total.sizeBytes = some 5
    ∧ (Metrics.run Metrics.initialState
        [Metrics.Ev.loadingDone, Metrics.Ev.firstFrame 7]).metrics.total.durationMs = some 7 := by
  constructor
  · have h := (C3_totalMetrics_derivation [Metrics.Ev.record .texture "a" (some 5)]).1
      (Or.inr (by decide))
    exact h.trans (by decide)
  · exact (C3_totalMetrics_derivation
      [Metrics.Ev.loadingDone, Metrics.Ev.firstFrame 7]).2.2
      [Metrics.Ev.loadingDone] 7 rfl (by decide) (by decide)

/-! ### Claim C5 -/

namespace Metrics

theorem closesFrom_pos {n : Nat} {evs : List Ev} (h : ClosesFrom n evs) : 1 ≤ n := by
  cases h with
  | lastEnd t => exact Nat.le_refl 1
  | moreStart t n evs hn _ => exact hn
  | moreEnd t n evs _ => exact Nat.le_add_left 1 n

theorem closesFrom_ne_nil {n : Nat} {evs : List Ev} (h : ClosesFrom n evs) : evs ≠ [] := by
  cases h with
  | lastEnd t => exact List.cons_ne_nil _ _
  | moreStart t n evs _ _ => exact List.cons_ne_nil _ _
  | moreEnd t n evs _ => exact List.cons_ne_nil _ _

theorem lastTexEndTime_cons (e : Ev) {evs : List Ev} (h : evs ≠ []) :
    lastTexEndTime (e :: evs) = lastTexEndTime evs := by
  cases evs with
  | nil => exact absurd rfl h
  | cons e2 rest => rw [lastTexEndTime, lastTexEndTime, List.getLast?_cons_cons]

/-- The core of claim C5: while a texture-load group that began at `t0`
runs (`ClosesFrom n evs`), `textures.durationMs` stays unset at every
proper prefix of the group's events, and the final completion — the one
that drives the in-flight counter to zero — assigns it
`lastEnd − t0`. -/
theorem closesFrom_run {n : Nat} {evs : List Ev} (h : ClosesFrom n evs) :
    ∀ (s : TrackState) (t0 tl : Int),
      s.textureLoadsInFlight = n →
      s.textureLoadStart = some t0 →
      s.metrics.textures.durationMs = none →
      lastTexEndTime evs = some tl →
      (run s evs).metrics.textures.durationMs = some (tl - t0)
      ∧ ∀ p, p <+: evs → p ≠ evs → (run s p).metrics.textures.durationMs = none := by
  induction h with
  | lastEnd t =>
    intro s t0 tl hfl hst hdur hlast
    have htl : t = tl := by
      rw [lastTexEndTime] at hlast
      simp only [List.getLast?_singleton] at hlast
      exact Option.some.inj hlast
    subst htl
    constructor
    · show (markTextureLoadEnd t s).metrics.textures.durationMs = some (t - t0)
      simp [markTextureLoadEnd, hfl, hst]
    · intro p hp hne
      rcases List.prefix_cons_iff.mp hp with rfl | ⟨q, rfl, hq⟩
      · exact hdur
      · have hq0 : q = [] := List.prefix_nil.mp hq
        subst hq0
        exact absurd rfl hne
  | moreStart t n evs hn hcl ih =>
    intro s t0 tl hfl hst hdur hlast
    have hne : evs ≠ [] := closesFrom_ne_nil hcl
    have hstep :
        run s (Ev.texStart t :: evs) = run (markTextureLoadStart t s) evs := rfl
    have hs' :
        markTextureLoadStart t s
          = { s with textureLoadsInFlight := s.textureLoadsInFlight + 1 } := by
      have hcond : ¬s.textureLoadStart = none := by
        rw [hst]
        exact fun hc => Option.noConfusion hc
      simp [markTextureLoadStart, hcond]
    have hmain := ih (markTextureLoadStart t s) t0 tl
      (by rw [hs', hfl]) (by rw [hs']; exact hst) (by rw [hs']; exact hdur)
      (by rwa [lastTexEndTime_cons _ hne] at hlast)
    constructor
    · rw [hstep]
      exact hmain.1
    · intro p hp hne'
      rcases List.prefix_cons_iff.mp hp with rfl | ⟨q, rfl, hq⟩
      · exact hdur
      · have hqne : q ≠ evs := fun hc => hne' (by rw [hc])
        show (run (markTextureLoadStart t s) q).metrics.textures.durationMs = none
        exact hmain.2 q hq hqne
  | moreEnd t n evs hcl ih =>
    intro s t0 tl hfl hst hdur hlast
    have hne : evs ≠ [] := closesFrom_ne_nil hcl
    have hpos : 1 ≤ n := closesFrom_pos hcl
    have hstep :
        run s (Ev.texEnd t :: evs) = run (markTextureLoadEnd t s) evs := rfl
    have hs' :
        markTextureLoadEnd t s
          = { s with textureLoadsInFlight := s.textureLoadsInFlight - 1 } := by
      have hcond : ¬(s.textureLoadsInFlight - 1 = 0) := by
        rw [hfl]
        omega
      simp [markTextureLoadEnd, hcond]
    have hmain := ih (markTextureLoadEnd t s) t0 tl
      (by rw [hs', hfl]; simp) (by rw [hs']; exact hst) (by rw [hs']; exact hdur)
      (by rwa [lastTexEndTime_cons _ hne] at hlast)
    constructor
    · rw [hstep]
      exact hmain.1
    · intro p hp hne'
      rcases List.prefix_cons_iff.mp hp with rfl | ⟨q, rfl, hq⟩
      · exact hdur
      · have hqne : q ≠ evs := fun hc => hne' (by rw [hc])
        show (run (markTextureLoadEnd t s) q).metrics.textures.durationMs = none
        exact hmain.2 q hq hqne

end Metrics

/-- C5: for a group of concurrent texture loads — a first start at `t0`
from an idle tracker followed by events that keep the in-flight counter
strictly positive until the final completion at `tl` drives it back to
zero — `textures.durationMs` is `null` after every proper prefix of the
group and is assigned exactly once, by that final completion, with value
`tl − t0` (end of last minus start of first). -/
theorem C5_textureDuration_group (s : Metrics.TrackState) (t0 tl : Int)
    (rest : List Metrics.Ev)
    (hfl : s.textureLoadsInFlight = 0)
    (hst : s.textureLoadStart = none)
    (hc : Metrics.ClosesFrom 1 rest)
    (hlast : Metrics.lastTexEndTime rest = some tl) :
    (Metrics.run s (Metrics.Ev.texStart t0 :: rest)).metrics.textures.durationMs
      = some (tl - t0)
    ∧ ∀ p, p <+: rest → p ≠ rest →
        (Metrics.run s (Metrics.Ev.texStart t0 :: p)).metrics.textures.durationMs = none := by
  have hs' :
      Metrics.markTextureLoadStart t0 s
        = { s with
            textureLoadStart := some t0
            metrics :=
              { s.metrics with
                textures := { s.metrics.textures with durationMs := none }}
            textureLoadsInFlight := s.textureLoadsInFlight + 1 } := by
    simp [Metrics.markTextureLoadStart, hst]
  have hmain := Metrics.closesFrom_run hc (Metrics.markTextureLoadStart t0 s) t0 tl
    (by rw [hs', hfl]) (by rw [hs']) (by rw [hs']) hlast
  exact ⟨hmain.1, fun p hp hne => hmain.2 p hp hne⟩

/-- C5, witness: two overlapping texture loads starting at times 5 and 7
and completing at 9 and 20 yield `textures.durationMs = 20 − 5 = 15`,
assigned by the last completion. -/
theorem C5_textureDuration_group_witness :
    (Metrics.run Metrics.initialState
      [Metrics.Ev.texStart 5, Metrics.Ev.texStart 7, Metrics.Ev.texEnd 9,
        Metrics.Ev.texEnd 20]).metrics.textures.durationMs = some 15 := by
  have h := (C5_textureDuration_group Metrics.initialState 5 20
    [Metrics.Ev.texStart 7, Metrics.Ev.texEnd 9, Metrics.Ev.texEnd 20] rfl rfl
    (Metrics.ClosesFrom.moreStart 7 1 _ (Nat.le_refl 1)
      (Metrics.ClosesFrom.moreEnd 9 1 _ (Metrics.ClosesFrom.lastEnd 20)))
    rfl).1
  exact h.trans (by decide)

end RVF
